import Mathlib

/-!
Verification of the answer-normalization / scoring engine and the session
state machine of the `english-mapping-practice` single-page quiz app
(`src/app/page.tsx`), as a shallow embedding in Lean 4.

Strings are modelled as Lean `String` / `List Char`; the JavaScript
`Record<string, string>` answer map is modelled as an association list with
JS-object key semantics (update in place, insert at the end); `undefined`
results are modelled with `Option`.
-/

namespace QuizApp

/-! ### JS string primitives used by the helpers -/

/-- The character class matched by `\s` in a JavaScript regular expression
(also the set stripped by `String.prototype.trim`): tab, LF, VT, FF, CR,
space, NBSP, and the Unicode space separators, line/paragraph separators,
narrow no-break space, medium mathematical space, ideographic space and BOM. -/
def isJsWs (c : Char) : Bool :=
  (9 ≤ c.toNat && c.toNat ≤ 13) || c.toNat == 32 || c.toNat == 160 ||
  c.toNat == 5760 || (8192 ≤ c.toNat && c.toNat ≤ 8202) ||
  c.toNat == 8232 || c.toNat == 8233 || c.toNat == 8239 ||
  c.toNat == 8287 || c.toNat == 12288 || c.toNat == 65279

/-- Lowercase ASCII letter `a`-`z` (the `a-z` part of the regex class). -/
def isLowerAlpha (c : Char) : Bool :=
  97 ≤ c.toNat && c.toNat ≤ 122

/-- ASCII digit `0`-`9` (the `0-9` part of the regex class). -/
def isDigitChar (c : Char) : Bool :=
  48 ≤ c.toNat && c.toNat ≤ 57

/-- Per-character model of `String.prototype.toLowerCase` on the code points
this application compares: ASCII uppercase maps to lowercase, everything
else is unchanged. -/
def jsToLower (c : Char) : Char :=
  if 65 ≤ c.toNat ∧ c.toNat ≤ 90 then Char.ofNat (c.toNat + 32) else c

/-- Per-character model of `String.prototype.toUpperCase` on the code points
this application renders (the mcq option codes): ASCII lowercase maps to
uppercase, everything else is unchanged. -/
def jsToUpper (c : Char) : Char :=
  if 97 ≤ c.toNat ∧ c.toNat ≤ 122 then Char.ofNat (c.toNat - 32) else c

/-- One step of `.replace(/[^a-z0-9\s]/g, " ")`: a character that is not a
lowercase ASCII letter, digit or whitespace becomes a single space. -/
def normChar (c : Char) : Char :=
  if isLowerAlpha c || isDigitChar c || isJsWs c then c else ' '

/-- `.replace(/\s+/g, " ")`: each maximal run of whitespace characters is
replaced by one space.  A whitespace character is absorbed when the
collapsed rest already starts with the space standing for the same run
(only whitespace ever yields a leading space in the output). -/
def collapseWs : List Char → List Char
  | [] => []
  | c :: rest =>
    if isJsWs c then
      if (collapseWs rest).head? == some ' ' then collapseWs rest
      else ' ' :: collapseWs rest
    else
      c :: collapseWs rest

/-- Removal of a trailing whitespace run (the tail half of
`String.prototype.trim`). -/
def dropTrailingWs : List Char → List Char
  | [] => []
  | c :: rest =>
    match dropTrailingWs rest with
    | [] => if isJsWs c then [] else [c]
    | d :: r => c :: d :: r

/-- `String.prototype.trim` on a character list: drop the leading and the
trailing whitespace run. -/
def jsTrim (l : List Char) : List Char :=
  dropTrailingWs (l.dropWhile isJsWs)

/-- `String.prototype.trim` on a `String`. -/
def jsTrimStr (s : String) : String :=
  String.mk (jsTrim s.data)

/-! ### The three pure helpers of `page.tsx` -/

/-- `normalize` (page.tsx lines 13-19): lowercase, replace every character
outside `[a-z0-9\s]` by a space, collapse whitespace runs to one space,
trim.  (`(s || "")` only converts `null`/`undefined` to `""`, which the
typed embedding has no need for.) -/
def normalize (s : String) : String :=
  String.mk (jsTrim (collapseWs ((s.data.map jsToLower).map normChar)))

/-- `startsWithChars l pat`: `pat` is a prefix of `l` (helper for the model
of `String.prototype.includes`). -/
def startsWithChars : List Char → List Char → Bool
  | _, [] => true
  | [], _ :: _ => false
  | a :: as, b :: bs => a == b && startsWithChars as bs

/-- Model of `String.prototype.includes` on character lists: some suffix of
`hay` starts with `pat`. -/
def includesChars (hay pat : List Char) : Bool :=
  match hay with
  | [] => startsWithChars [] pat
  | _ :: rest => startsWithChars hay pat || includesChars rest pat

/-- `containsAnyKeyword` (page.tsx lines 21-24): normalize the text, and
test whether the normalization of any keyword occurs in it as a substring. -/
def containsAnyKeyword (text : String) (keywords : List String) : Bool :=
  keywords.any (fun k => includesChars (normalize text).data (normalize k).data)

/-- `equalsAny` (page.tsx lines 26-29): the normalized text equals the
normalization of some accepted answer. -/
def equalsAny (text : String) (accepted : List String) : Bool :=
  (accepted.map normalize).contains (normalize text)

/-! ### Data model (page.tsx lines 31-75) -/

/-- `MCQOption`: a short option code (`"a" | "b" | "c"`) and a label. -/
structure MCQOption where
  id : String
  label : String
deriving DecidableEq

/-- The kind-specific payload of an `Item` (the TS union tag `type` plus the
variant fields).  `short.keywords` is `Option` because the TS field is
optional (`keywords?: string[]`). -/
inductive ItemKind where
  | mcq (options : List MCQOption) (answer : String)
  | text (acceptedAnswers : List String)
  | short (keywords : Option (List String))
  | writing
deriving DecidableEq

/-- An item: id, prompt, optional guidance, and the kind payload. -/
structure Item where
  id : String
  prompt : String
  guidance : Option String := none
  kind : ItemKind
deriving DecidableEq

/-- A named ordered group of items. -/
structure Section where
  id : String
  name : String
  items : List Item
deriving DecidableEq

/-- A complete test: title, reading passage, ordered sections. -/
structure Test where
  title : String
  readingTitle : String
  readingText : String
  sections : List Section
deriving DecidableEq

/-! ### The content catalog `TESTS` (page.tsx lines 80-487), transcribed
verbatim. -/

/-- `TESTS.original`: "Practice Test – Mixed Skills". -/
def originalTest : Test :=
  { title := "Practice Test – Mixed Skills"
    readingTitle := "A New School Year"
    readingText := "Emma started 8th grade last Monday. She was nervous but excited. Her new school was bigger than her old one, and she had to find her classrooms on her own. At first, it was confusing, but her teachers were friendly and helpful.\n\nEmma’s favourite subject is English because she enjoys reading and writing stories. This year, she also joined the school drama club. She hopes it will help her become more confident."
    sections := [
      { id := "reading"
        name := "Task 1: Reading Comprehension"
        items := [
          { id := "r1", prompt := "How did Emma feel about starting 8th grade?",
            guidance := some "Write 1 sentence.",
            kind := .short (some ["nervous", "excited"]) },
          { id := "r2", prompt := "Why was the new school difficult at first?",
            guidance := some "Write 1 sentence.",
            kind := .short (some ["bigger", "find", "classrooms", "on her own", "confusing"]) },
          { id := "r3", prompt := "What is Emma’s favourite subject, and why?",
            guidance := some "Write 1 sentence.",
            kind := .short (some ["English", "reading", "writing", "stories"]) },
          { id := "r4", prompt := "What does Emma hope the drama club will help her with?",
            guidance := some "Write 1 sentence.",
            kind := .short (some ["confident", "confidence"]) }] },
      { id := "vocab"
        name := "Task 2: Vocabulary"
        items := [
          { id := "v1", prompt := "Emma was ______ about her new school.",
            kind := .mcq [⟨"a", "angry"⟩, ⟨"b", "excited"⟩, ⟨"c", "bored"⟩] "b" },
          { id := "v2", prompt := "The teachers were friendly and ______.",
            kind := .mcq [⟨"a", "helpful"⟩, ⟨"b", "noisy"⟩, ⟨"c", "strict"⟩] "a" },
          { id := "v3", prompt := "Emma enjoys ______ stories.",
            kind := .mcq [⟨"a", "breaking"⟩, ⟨"b", "reading"⟩, ⟨"c", "losing"⟩] "b" }] },
      { id := "grammar"
        name := "Task 3: Grammar"
        items := [
          { id := "g1", prompt := "Emma ___ to school last Monday.",
            kind := .mcq [⟨"a", "go"⟩, ⟨"b", "goes"⟩, ⟨"c", "went"⟩] "c" },
          { id := "g2", prompt := "She ___ English lessons every week.",
            kind := .mcq [⟨"a", "has"⟩, ⟨"b", "had"⟩, ⟨"c", "will have"⟩] "a" },
          { id := "g3", prompt := "They ___ in the drama club tomorrow.",
            kind := .mcq [⟨"a", "are"⟩, ⟨"b", "were"⟩, ⟨"c", "will be"⟩] "c" }] },
      { id := "structure"
        name := "Task 4: Sentence Structure"
        items := [
          { id := "s1", prompt := "Put the words in the correct order: school / new / her / likes / she",
            guidance := some "Type the full sentence.",
            kind := .text ["She likes her new school."] },
          { id := "s2", prompt := "Put the words in the correct order: English / favourite / is / subject / her",
            guidance := some "Type the full sentence.",
            kind := .text ["English is her favourite subject."] }] },
      { id := "writing"
        name := "Task 5: Writing"
        items := [
          { id := "w1",
            prompt := "Write 6–8 sentences about ONE: (1) Your favourite school subject, (2) Your first day at a new school, or (3) A hobby you enjoy.",
            guidance := some "Use full sentences. Try correct verb tenses, spelling, and punctuation.",
            kind := .writing }] },
      { id := "instructions"
        name := "Task 6: Instructions & Understanding"
        items := [
          { id := "i1", prompt := "Describe one thing you like about your school. (2–3 sentences.)",
            guidance := some "Write 2–3 sentences.",
            kind := .short none }] },
      { id := "listening"
        name := "Task 7: Listening-style (Reading Instead)"
        items := [
          { id := "l1",
            prompt := "Dialogue: Teacher: “Did you finish your homework?” Student: “I started it, but I didn’t understand the last task.”\n\nQuestion: Why didn’t the student finish the homework?",
            guidance := some "Write 1 sentence.",
            kind := .short (some ["didn’t understand", "last task"]) }] }] }

/-- `TESTS.day1`: "Practice Test – Reading & Vocabulary". -/
def day1Test : Test :=
  { title := "Practice Test – Reading & Vocabulary"
    readingTitle := "After School Activities"
    readingText := "Many students enjoy after-school activities. Some prefer sports like football or basketball, while others choose music, drama, or art clubs. These activities help students relax after a long school day and make new friends.\n\nJake joined the school football team this year. At first, he felt unsure because he had never played before. However, his teammates supported him, and now he looks forward to practice every week."
    sections := [
      { id := "reading"
        name := "Task 1: Reading Comprehension"
        items := [
          { id := "q1", prompt := "Why do many students like after-school activities?",
            guidance := some "Write 1–2 sentences.",
            kind := .short (some ["relax", "friends", "make new friends"]) },
          { id := "q2", prompt := "Name two types of after-school activities mentioned in the text.",
            guidance := some "Write two activities.",
            kind := .short (some ["football", "basketball", "music", "drama", "art"]) },
          { id := "q3", prompt := "How did Jake feel at first when he joined the football team?",
            guidance := some "Write 1 sentence.",
            kind := .short (some ["unsure"]) },
          { id := "q4", prompt := "Why does Jake enjoy practice now?",
            guidance := some "Write 1 sentence.",
            kind := .short (some ["teammates", "supported", "support"]) }] },
      { id := "vocab"
        name := "Task 2: Vocabulary"
        items := [
          { id := "mc1", prompt := "After-school activities help students ______.",
            kind := .mcq [⟨"a", "worry"⟩, ⟨"b", "relax"⟩, ⟨"c", "argue"⟩] "b" },
          { id := "mc2", prompt := "Jake felt ______ at first.",
            kind := .mcq [⟨"a", "confident"⟩, ⟨"b", "unsure"⟩, ⟨"c", "angry"⟩] "b" },
          { id := "mc3", prompt := "His teammates ______ him.",
            kind := .mcq [⟨"a", "ignored"⟩, ⟨"b", "supported"⟩, ⟨"c", "forgot"⟩] "b" }] },
      { id := "context"
        name := "Task 3: Vocabulary in Context"
        items := [
          { id := "mc4", prompt := "I like joining clubs because I can make new ______.",
            kind := .mcq [⟨"a", "homework"⟩, ⟨"b", "friends"⟩, ⟨"c", "teachers"⟩] "b" },
          { id := "mc5", prompt := "She looks forward to football ______ every week.",
            kind := .mcq [⟨"a", "practice"⟩, ⟨"b", "break"⟩, ⟨"c", "lesson"⟩] "a" }] },
      { id := "writing"
        name := "Task 4: Short Answer"
        items := [
          { id := "wDay1", prompt := "What after-school activity would you like to join, and why?",
            guidance := some "Write ONE full sentence.",
            kind := .writing }] },
      { id := "title"
        name := "Task 5: Instructions"
        items := [
          { id := "mc6", prompt := "Choose the best title for the text.",
            kind := .mcq [⟨"a", "A Difficult School Day"⟩, ⟨"b", "Learning in the Classroom"⟩,
              ⟨"c", "After-School Activities"⟩] "c" }] }] }

/-- `TESTS.day2`: "Practice Test – Grammar & Sentences". -/
def day2Test : Test :=
  { title := "Practice Test – Grammar & Sentences"
    readingTitle := "School Life"
    readingText := "Tom goes to a secondary school in a small town. He likes English lessons, but he finds grammar difficult. Every day, he practices by writing short sentences and reading English texts."
    sections := [
      { id := "grammar"
        name := "Task 1: Grammar (Choose the correct answer)"
        items := [
          { id := "d2_1", prompt := "Tom ____ to a secondary school.",
            kind := .mcq [⟨"a", "go"⟩, ⟨"b", "goes"⟩, ⟨"c", "went"⟩] "b" },
          { id := "d2_2", prompt := "He ____ grammar difficult.",
            kind := .mcq [⟨"a", "finds"⟩, ⟨"b", "found"⟩, ⟨"c", "will find"⟩] "a" },
          { id := "d2_3", prompt := "Yesterday, Tom ____ English texts.",
            kind := .mcq [⟨"a", "reads"⟩, ⟨"b", "read"⟩, ⟨"c", "will read"⟩] "b" }] },
      { id := "sentences"
        name := "Task 2: Build sentences"
        items := [
          { id := "d2_s1", prompt := "Write this in the past tense: “Tom goes to school.”",
            guidance := some "Type the full sentence.",
            kind := .text ["Tom went to school."] },
          { id := "d2_s2", prompt := "Write one sentence in the present tense about yourself.",
            guidance := some "Example: I play football. / I like English.",
            kind := .short none },
          { id := "d2_s3", prompt := "Write one sentence in the future tense about tomorrow.",
            guidance := some "Example: I will study English tomorrow.",
            kind := .short (some ["will"]) }] },
      { id := "writing"
        name := "Task 3: Short Writing"
        items := [
          { id := "d2_w1", prompt := "Write 3–4 sentences: How do you practice English outside school?",
            guidance := some "Use full sentences.",
            kind := .writing }] }] }

/-- The keys of the catalog record (`keyof typeof TESTS`). -/
inductive TestKey where
  | original
  | day1
  | day2
deriving DecidableEq

/-- The catalog record `TESTS` as a total lookup on its keys. -/
def TESTS : TestKey → Test
  | .original => originalTest
  | .day1 => day1Test
  | .day2 => day2Test

/-! ### The answer map and the derived values (page.tsx lines 523-590) -/

/-- The `Record<string, string>` answer map, as an association list. -/
abbrev AnswerMap := List (String × String)

/-- `{...prev, [id]: value}` on a JS object: an existing key keeps its
position and gets the new value, a new key is appended. -/
def upsert : AnswerMap → String → String → AnswerMap
  | [], id, v => [(id, v)]
  | (k, w) :: rest, id, v =>
    if k == id then (k, v) :: rest else (k, w) :: upsert rest id v

/-- `answers[it.id]`: `Option`-valued field read (`none` models
`undefined`). -/
def readAnswer (answers : AnswerMap) (id : String) : Option String :=
  answers.lookup id

/-- `answers[it.id] || ""`: the stored answer, with a missing entry read as
the empty string.  (A stored `""` is falsy and also yields `""`.) -/
def storedAnswer (answers : AnswerMap) (id : String) : String :=
  (readAnswer answers id).getD ""

/-- `allItems` (page.tsx lines 532-536) without the display-only
`sectionName` decoration: the sections' items flattened in test order. -/
def allItems (t : Test) : List Item :=
  t.sections.flatMap (fun s => s.items)

/-- Whether an item is auto-scored (`it.type === "mcq" || it.type ===
"text"`). -/
def isAutoScored (it : Item) : Bool :=
  match it.kind with
  | .mcq _ _ => true
  | .text _ => true
  | _ => false

/-- `autoScoredItems` (page.tsx lines 538-541). -/
def autoScoredItems (t : Test) : List Item :=
  (allItems t).filter isAutoScored

/-- `totalAutoPoints` (page.tsx line 543). -/
def totalAutoPoints (t : Test) : Nat :=
  (autoScoredItems t).length

/-- `totalPoints` (page.tsx line 544): `totalAutoPoints + 1`, the `+ 1`
being the single writing self-check point. -/
def totalPoints (t : Test) : Nat :=
  totalAutoPoints t + 1

/-- The per-item attempt predicate shared by `attemptedCount` and
`isComplete` (page.tsx lines 547-551 and 560-564): for an mcq item the
stored answer is truthy (`!!a`); for every other item it is a present
string with non-whitespace content (`a.trim().length > 0`). -/
def attempted (answers : AnswerMap) (it : Item) : Bool :=
  match it.kind with
  | .mcq _ _ =>
    match readAnswer answers it.id with
    | none => false
    | some a => a != ""
  | _ =>
    match readAnswer answers it.id with
    | none => false
    | some a => (jsTrim a.data).length > 0

/-- `attemptedCount` (page.tsx lines 546-552). -/
def attemptedCount (t : Test) (answers : AnswerMap) : Nat :=
  ((allItems t).filter (attempted answers)).length

/-- `isComplete` (page.tsx lines 558-565): every item is attempted. -/
def isComplete (t : Test) (answers : AnswerMap) : Bool :=
  (allItems t).all (attempted answers)

/-- `autoScore` (page.tsx lines 567-578): fold over the auto-scored items,
adding one for a correct mcq (`given === it.answer`) or a correct text
item (`equalsAny(given, it.acceptedAnswers)`), with the stored answer
defaulted to `""`. -/
def autoScore (t : Test) (answers : AnswerMap) : Nat :=
  (autoScoredItems t).foldl
    (fun correct it =>
      let given := storedAnswer answers it.id
      match it.kind with
      | .mcq _ answer => if given == answer then correct + 1 else correct
      | .text accepted => if equalsAny given accepted then correct + 1 else correct
      | _ => correct)
    0

/-- `finalScore` (page.tsx line 580): `autoScore + (selfScoreWriting ?? 0)`. -/
def finalScore (t : Test) (answers : AnswerMap) (selfScoreWriting : Option Nat) : Nat :=
  autoScore t answers + selfScoreWriting.getD 0

/-- One entry of `shortHints` (page.tsx line 588). -/
structure HintFeedback where
  id : String
  prompt : String
  ok : Bool
  hasHint : Bool
  keywords : List String
deriving DecidableEq

/-- Whether an item is a `short` item. -/
def isShort (it : Item) : Bool :=
  match it.kind with
  | .short _ => true
  | _ => false

/-- The keyword list of a short item's kind payload (`it.keywords`),
defaulted to `[]` as in `it.keywords || []`. -/
def kindKeywords : ItemKind → List String
  | .short (some ks) => ks
  | _ => []

/-- `it.keywords?.length ? containsAnyKeyword(text, it.keywords) : true`
(page.tsx line 587): with no keyword list, or an empty one, the hint is
automatically satisfied. -/
def shortHasHint (kind : ItemKind) (text : String) : Bool :=
  match kind with
  | .short (some ks) =>
    if 0 < ks.length then containsAnyKeyword text ks else true
  | _ => true

/-- `shortHints` (page.tsx lines 582-590). -/
def shortHints (t : Test) (answers : AnswerMap) : List HintFeedback :=
  ((allItems t).filter isShort).map
    (fun it =>
      let text := storedAnswer answers it.id
      { id := it.id
        prompt := it.prompt
        ok := (jsTrim text.data).length > 0
        hasHint := shortHasHint it.kind text
        keywords := kindKeywords it.kind })

/-! ### The export rendering (page.tsx lines 894-913) -/

/-- The per-item line pair of the export text.  For an mcq item the stored
answer (if truthy) renders as uppercased code, `") "`, and the label found
for that code — `undefined` when `find` fails, which JS string
interpolation prints as `"undefined"`.  For every other item the raw
stored string renders, with `"—"` when it is absent or whitespace-only. -/
def exportLine (sectionName : String) (it : Item) (answers : AnswerMap) : String :=
  match it.kind with
  | .mcq options _ =>
    let a := storedAnswer answers it.id
    sectionName ++ " • " ++ it.prompt ++ "\nAnswer: " ++
      (if a != "" then
        String.mk (a.data.map jsToUpper) ++ ") " ++
          (((options.find? (fun o => o.id == a)).map MCQOption.label).getD "undefined")
      else "—")
  | _ =>
    let a := storedAnswer answers it.id
    sectionName ++ " • " ++ it.prompt ++ "\nAnswer: " ++
      (if (jsTrim a.data).length > 0 then a else "—")

/-- The full export text: the item blocks in test order, joined by a blank
line (`.join("\n\n")`). -/
def exportText (t : Test) (answers : AnswerMap) : String :=
  String.intercalate "\n\n"
    (t.sections.flatMap (fun s => s.items.map (fun it => exportLine s.name it answers)))

/-! ### The session state machine (page.tsx lines 523-530, 592-610 and the
button guards at lines 620-683, 808-817) -/

/-- The view mode `"read" | "test" | "results"`. -/
inductive Tab where
  | read
  | test
  | results
deriving DecidableEq

/-- The mutable session state: the five `useState` cells of `App`. -/
structure Session where
  selectedTestKey : TestKey
  tab : Tab
  answers : AnswerMap
  selfScoreWriting : Option Nat
  finished : Bool
deriving DecidableEq

/-- The initial state (page.tsx lines 524-530): test `day1`, view `read`,
empty answers, no self-score, not finished. -/
def initialSession : Session :=
  { selectedTestKey := .day1
    tab := .read
    answers := []
    selfScoreWriting := none
    finished := false }

/-- The user actions the page exposes. -/
inductive Action where
  | setAnswer (id value : String)
  | selectTest (key : TestKey)
  | reset
  | finish
  | setTab (t : Tab)
  | setSelfScoreWriting (n : Nat)

/-- Whether an action's control is rendered and not `disabled`:
* answer inputs and the writing self-check buttons exist only in the test
  view;
* the test `select` is disabled while the test view is active and the
  session is unfinished (line 624);
* the Reset button is always enabled (line 681);
* the Finish button is rendered in the test view and disabled unless
  `isComplete` (line 810);
* the Reading button is disabled while the test view is active and the
  session is unfinished (line 655), the Test button is always enabled, the
  Results button is disabled until finished (line 673). -/
def enabled (s : Session) : Action → Bool
  | .setAnswer _ _ => s.tab == .test
  | .selectTest _ => !(s.tab == .test && !s.finished)
  | .reset => true
  | .finish => s.tab == .test && isComplete (TESTS s.selectedTestKey) s.answers
  | .setTab .read => !(s.tab == .test && !s.finished)
  | .setTab .test => true
  | .setTab .results => s.finished
  | .setSelfScoreWriting n => s.tab == .test && n ≤ 1

/-- The state update an action performs:
* `setAnswer` upserts (line 593);
* `selectTest` is `onChangeTest` (lines 603-610): switch the test and reset
  answers, self-score, finished flag and view;
* `reset` is `resetAllToReading` (lines 596-601): the same reset without
  switching the test;
* `finish` sets `finished` and shows the results (lines 811-814);
* `setTab`/`setSelfScoreWriting` overwrite one cell. -/
def apply (s : Session) : Action → Session
  | .setAnswer id v => { s with answers := upsert s.answers id v }
  | .selectTest k =>
    { s with selectedTestKey := k, answers := [],
             selfScoreWriting := none, finished := false, tab := .read }
  | .reset =>
    { s with answers := [], selfScoreWriting := none,
             finished := false, tab := .read }
  | .finish => { s with finished := true, tab := .results }
  | .setTab t => { s with tab := t }
  | .setSelfScoreWriting n => { s with selfScoreWriting := some n }

/-- One enabled step of the UI. -/
def stepAct (s : Session) (a : Action) (s' : Session) : Prop :=
  enabled s a = true ∧ s' = apply s a

/-- The states reachable from the initial state through enabled steps. -/
inductive Reachable : Session → Prop
  | init : Reachable initialSession
  | step {s a s'} : Reachable s → stepAct s a s' → Reachable s'

/-! ### Spec-side restatements used to compare the code against the
claims' wording -/

/-- The claim's per-item mcq correctness: the item is an mcq item and the
stored answer code (a missing answer read as `""`) equals its `answer`
field. -/
def mcqCorrect (answers : AnswerMap) (it : Item) : Bool :=
  match it.kind with
  | .mcq _ answer => storedAnswer answers it.id == answer
  | _ => false

/-- The claim's per-item text correctness: the item is a text item and the
stored answer satisfies `equalsAny` against its accepted answers. -/
def textCorrect (answers : AnswerMap) (it : Item) : Bool :=
  match it.kind with
  | .text accepted => equalsAny (storedAnswer answers it.id) accepted
  | _ => false

/-- The hint policy as the claim words it: automatic success when the item
defines no keywords (absent or empty list), keyword containment otherwise. -/
def claimHasHint (kind : ItemKind) (answer : String) : Bool :=
  match kind with
  | .short none => true
  | .short (some []) => true
  | .short (some ks) => containsAnyKeyword answer ks
  | _ => true

/-- Removal of a short item's keyword list; any other item is unchanged. -/
def eraseKw (it : Item) : Item :=
  match it.kind with
  | .short _ => { it with kind := .short none }
  | _ => it

/-- The same test with every short item's keyword list removed: scores must
not see the difference, since hint feedback is advisory. -/
def eraseShortKeywords (t : Test) : Test :=
  { t with sections := t.sections.map (fun s => { s with items := s.items.map eraseKw }) }

/-- Every item of a test paired with the name of its section, in test
order. -/
def allItemsWithSection (t : Test) : List (String × Item) :=
  t.sections.flatMap (fun s => s.items.map (fun it => (s.name, it)))

/-- The per-item export rendering exactly as the claim words it: `"—"` is
substituted whenever the answer is missing or whitespace-only, for every
item type alike; otherwise an mcq answer renders as uppercased code,
`") "` and the label found for the code, and any other item renders the
raw stored string. -/
def claimLine (sectionName : String) (it : Item) (answers : AnswerMap) : String :=
  let a := storedAnswer answers it.id
  sectionName ++ " • " ++ it.prompt ++ "\nAnswer: " ++
    (if (jsTrim a.data).length > 0 then
      match it.kind with
      | .mcq options _ =>
        String.mk (a.data.map jsToUpper) ++ ") " ++
          (((options.find? (fun o => o.id == a)).map MCQOption.label).getD "undefined")
      | _ => a
    else "—")

/-- The export text as the claim words it. -/
def claimExportText (t : Test) (answers : AnswerMap) : String :=
  String.intercalate "\n\n"
    ((allItemsWithSection t).map (fun p => claimLine p.1 p.2 answers))

/-- The per-item export rendering of the amended claim: for an mcq item
`"—"` is substituted exactly when the stored answer is missing or empty
(the code's truthiness test, which lets a whitespace-only mcq answer
render); for every other item `"—"` is substituted when the answer is
missing or whitespace-only. -/
def amendedLine (sectionName : String) (it : Item) (answers : AnswerMap) : String :=
  let a := storedAnswer answers it.id
  sectionName ++ " • " ++ it.prompt ++ "\nAnswer: " ++
    (match it.kind with
     | .mcq options _ =>
       if a != "" then
         String.mk (a.data.map jsToUpper) ++ ") " ++
           (((options.find? (fun o => o.id == a)).map MCQOption.label).getD "undefined")
       else "—"
     | _ => if (jsTrim a.data).length > 0 then a else "—")

/-- The export text of the amended claim, computed by a single traversal of
the section-name / item pairs in test order. -/
def amendedExportText (t : Test) (answers : AnswerMap) : String :=
  String.intercalate "\n\n"
    ((allItemsWithSection t).map (fun p => amendedLine p.1 p.2 answers))

/-! ### Canonicity of normalized strings -/

/-- The characters that can appear in the output of `normalize`: lowercase
ASCII letters, digits, and the space. -/
def isOutChar (c : Char) : Bool :=
  isLowerAlpha c || isDigitChar c || c == ' '

/-- No two adjacent whitespace characters. -/
def noWsRun : List Char → Bool
  | [] => true
  | [_] => true
  | a :: b :: rest => !(isJsWs a && isJsWs b) && noWsRun (b :: rest)

/-- The canonical form `normalize` produces: only lowercase letters, digits
and single spaces, with no whitespace at either end. -/
def canonical (l : List Char) : Prop :=
  (∀ c ∈ l, isOutChar c = true) ∧ noWsRun l = true ∧
  (∀ c, l.head? = some c → isJsWs c = false) ∧
  (∀ c, l.getLast? = some c → isJsWs c = false)

/-! ### A concrete run of the UI, used to exhibit reachable states -/

/-- Run a list of actions from a state, ignoring guards. -/
def runActions (s : Session) (acts : List Action) : Session :=
  acts.foldl apply s

/-- Whether every action of a list is enabled at the state where it is
taken. -/
def allEnabled : Session → List Action → Bool
  | _, [] => true
  | s, a :: rest => enabled s a && allEnabled (apply s a) rest

/-- A complete pass through the default `day1` test: open the test view,
answer all eleven items, finish. -/
def demoActions : List Action :=
  [ .setTab .test,
    .setAnswer "q1" "They can relax and make new friends.",
    .setAnswer "q2" "Football and basketball.",
    .setAnswer "q3" "He felt unsure.",
    .setAnswer "q4" "His teammates supported him.",
    .setAnswer "mc1" "b",
    .setAnswer "mc2" "b",
    .setAnswer "mc3" "b",
    .setAnswer "mc4" "b",
    .setAnswer "mc5" "a",
    .setAnswer "wDay1" "I would like to join the drama club because it is fun.",
    .setAnswer "mc6" "c",
    .finish ]

/-- The state at the end of the demo pass. -/
def demoRun : Session :=
  runActions initialSession demoActions

/-- A complete answer map for the `day2` test, one entry per item. -/
def day2CompleteAnswers : AnswerMap :=
  [ ("d2_1", "b"), ("d2_2", "a"), ("d2_3", "b"),
    ("d2_s1", "Tom went to school."),
    ("d2_s2", "I play football."),
    ("d2_s3", "I will study English tomorrow."),
    ("d2_w1", "I practice English by reading books. I also write short sentences.") ]

/-! ## Theorems -/

/-- A filter keeps the whole length exactly when every element passes. -/
theorem length_filter_eq_iff_all {α : Type} (p : α → Bool) (l : List α) :
    (l.filter p).length = l.length ↔ l.all p = true := by
  induction l with
  | nil => simp
  | cons a l ih =>
    by_cases h : p a = true
    · simp [List.filter_cons, h, ih]
    · have hle := List.length_filter_le p l
      simp only [Bool.not_eq_true] at h
      simp [List.filter_cons, h]
      omega

/-- C6: for every test the total points are the number of auto-scored
(mcq and text) items plus exactly one reserved writing self-check point —
however many writing items the test has — and the final score is the
auto-score plus the writing self-score when it is set and plus zero
otherwise. -/
theorem totalPoints_and_finalScore (t : Test) (answers : AnswerMap) :
    totalPoints t = ((allItems t).filter isAutoScored).length + 1
    ∧ (∀ k, finalScore t answers (some k) = autoScore t answers + k)
    ∧ finalScore t answers none = autoScore t answers + 0 :=
  ⟨rfl, fun _ => rfl, rfl⟩

/-- C8: `selectTest` and `reset` both empty the answer map, unset the
writing self-score, clear the finished flag and return the view to
reading; `reset` keeps the selected test while `selectTest` replaces it,
and after either action the answer map holds no key at all. -/
theorem selectTest_reset_effects (s : Session) (k : TestKey) :
    (apply s (.selectTest k)).answers = []
    ∧ (apply s (.selectTest k)).selfScoreWriting = none
    ∧ (apply s (.selectTest k)).finished = false
    ∧ (apply s (.selectTest k)).tab = .read
    ∧ (apply s (.selectTest k)).selectedTestKey = k
    ∧ (apply s .reset).answers = []
    ∧ (apply s .reset).selfScoreWriting = none
    ∧ (apply s .reset).finished = false
    ∧ (apply s .reset).tab = .read
    ∧ (apply s .reset).selectedTestKey = s.selectedTestKey
    ∧ (∀ id, readAnswer (apply s (.selectTest k)).answers id = none)
    ∧ (∀ id, readAnswer (apply s .reset).answers id = none) :=
  ⟨rfl, rfl, rfl, rfl, rfl, rfl, rfl, rfl, rfl, rfl, fun _ => rfl, fun _ => rfl⟩

/-- C10: the reset action is enabled in every state — in particular while
the test view is active and the session unfinished — and it empties the
answer map and returns the view to reading, keeping the selected test. -/
theorem reset_enabled_everywhere (s : Session) :
    enabled s .reset = true
    ∧ (apply s .reset).answers = []
    ∧ (apply s .reset).tab = .read
    ∧ (apply s .reset).selectedTestKey = s.selectedTestKey :=
  ⟨rfl, rfl, rfl, rfl⟩

/-- C1: the completion check holds exactly when the attempted count equals
the test's item count; the finish action is gated by the completion check,
so a step can flip the finished flag to true only in a state where the
attempted count equals the item count. -/
theorem isComplete_iff_attemptedCount_total :
    (∀ (t : Test) (answers : AnswerMap),
      isComplete t answers = true ↔ attemptedCount t answers = (allItems t).length)
    ∧ (∀ s : Session, enabled s .finish = true →
        isComplete (TESTS s.selectedTestKey) s.answers = true)
    ∧ (∀ (s : Session) (a : Action) (s' : Session), stepAct s a s' →
        s.finished = false → s'.finished = true →
        attemptedCount (TESTS s.selectedTestKey) s.answers
          = (allItems (TESTS s.selectedTestKey)).length) := by
  have key : ∀ (t : Test) (answers : AnswerMap),
      isComplete t answers = true ↔ attemptedCount t answers = (allItems t).length := by
    intro t answers
    rw [isComplete, attemptedCount, Iff.comm]
    exact length_filter_eq_iff_all _ _
  refine ⟨key, ?_, ?_⟩
  · intro s h
    rw [enabled, Bool.and_eq_true] at h
    exact h.2
  · rintro s a s' ⟨hen, rfl⟩ hf hf'
    cases a with
    | setAnswer id v => simp [apply, hf] at hf'
    | selectTest k => simp [apply] at hf'
    | reset => simp [apply] at hf'
    | finish =>
      rw [enabled, Bool.and_eq_true] at hen
      exact (key _ _).mp hen.2
    | setTab t => simp [apply, hf] at hf'
    | setSelfScoreWriting n => simp [apply, hf] at hf'

/-- Witness for C1 at the fully answered `day2` test: the completion check
holds, and a concrete finish step happens at full attempted count. -/
theorem isComplete_iff_attemptedCount_total_witness :
    isComplete day2Test day2CompleteAnswers = true
    ∧ attemptedCount (TESTS TestKey.day2) day2CompleteAnswers
        = (allItems (TESTS TestKey.day2)).length :=
  ⟨(isComplete_iff_attemptedCount_total.1 day2Test day2CompleteAnswers).mpr (by decide),
   isComplete_iff_attemptedCount_total.2.2
     ⟨TestKey.day2, Tab.test, day2CompleteAnswers, none, false⟩ Action.finish
     (apply ⟨TestKey.day2, Tab.test, day2CompleteAnswers, none, false⟩ Action.finish)
     ⟨by decide, rfl⟩ rfl rfl⟩

/-- A correct mcq item is auto-scored. -/
theorem mcqCorrect_auto (answers : AnswerMap) (it : Item)
    (h : mcqCorrect answers it = true) : isAutoScored it = true := by
  cases hk : it.kind <;> simp [mcqCorrect, isAutoScored, hk] at *

/-- A correct text item is auto-scored. -/
theorem textCorrect_auto (answers : AnswerMap) (it : Item)
    (h : textCorrect answers it = true) : isAutoScored it = true := by
  cases hk : it.kind <;> simp [textCorrect, isAutoScored, hk] at *

/-- The fold inside `autoScore` counts the correct mcq items plus the
correct text items of any item list. -/
theorem autoScore_foldl_eq (answers : AnswerMap) (l : List Item) :
    ∀ n : Nat,
      l.foldl (fun correct it =>
        let given := storedAnswer answers it.id
        match it.kind with
        | .mcq _ answer => if given == answer then correct + 1 else correct
        | .text accepted => if equalsAny given accepted then correct + 1 else correct
        | _ => correct) n
      = n + l.countP (mcqCorrect answers) + l.countP (textCorrect answers) := by
  induction l with
  | nil => intro n; simp
  | cons it rest ih =>
    intro n
    rw [List.foldl_cons, ih, List.countP_cons, List.countP_cons]
    cases hk : it.kind with
    | mcq opts answer =>
      by_cases hg : (storedAnswer answers it.id == answer) = true
      · simp [mcqCorrect, textCorrect, hk, hg]
        omega
      · simp [mcqCorrect, textCorrect, hk, hg]
    | text accepted =>
      by_cases hg : equalsAny (storedAnswer answers it.id) accepted = true
      · simp [mcqCorrect, textCorrect, hk, hg]
        omega
      · simp [mcqCorrect, textCorrect, hk, hg]
    | short ks => simp [mcqCorrect, textCorrect, hk]
    | writing => simp [mcqCorrect, textCorrect, hk]

/-- The count of correct mcq (resp. text) items among the auto-scored items
is their count among all items. -/
theorem countP_autoScoredItems (t : Test) (answers : AnswerMap) :
    (autoScoredItems t).countP (mcqCorrect answers)
        = ((allItems t).filter (mcqCorrect answers)).length
    ∧ (autoScoredItems t).countP (textCorrect answers)
        = ((allItems t).filter (textCorrect answers)).length := by
  constructor
  · rw [autoScoredItems, List.countP_filter, ← List.countP_eq_length_filter]
    exact List.countP_congr (fun it _ => by
      constructor
      · intro h
        exact (Bool.and_eq_true _ _ ▸ h).1
      · intro h
        exact Bool.and_eq_true _ _ ▸ ⟨h, mcqCorrect_auto answers it h⟩)
  · rw [autoScoredItems, List.countP_filter, ← List.countP_eq_length_filter]
    exact List.countP_congr (fun it _ => by
      constructor
      · intro h
        exact (Bool.and_eq_true _ _ ▸ h).1
      · intro h
        exact Bool.and_eq_true _ _ ▸ ⟨h, textCorrect_auto answers it h⟩)

/-- C2: the auto-score equals the number of mcq items whose stored answer
code equals the item's answer field plus the number of text items whose
stored answer passes `equalsAny`; short and writing items never
contribute, and a missing answer is read as the empty string. -/
theorem autoScore_eq_counts (t : Test) (answers : AnswerMap) :
    autoScore t answers =
      ((allItems t).filter (mcqCorrect answers)).length
      + ((allItems t).filter (textCorrect answers)).length := by
  rw [autoScore, autoScore_foldl_eq answers (autoScoredItems t) 0, Nat.zero_add,
    (countP_autoScoredItems t answers).1, (countP_autoScoredItems t answers).2]

/-- C4: `equalsAny` is true exactly when some candidate normalizes to the
normalization of the text; in particular a single candidate with equal
normalization is accepted, the result is invariant under permuting the
candidates, and a duplicated candidate changes nothing. -/
theorem equalsAny_spec :
    (∀ (text : String) (cands : List String),
      equalsAny text cands = true ↔ ∃ c ∈ cands, normalize text = normalize c)
    ∧ (∀ s s2 : String, normalize s = normalize s2 → equalsAny s [s2] = true)
    ∧ (∀ (text : String) (l₁ l₂ : List String), l₁.Perm l₂ →
        equalsAny text l₁ = equalsAny text l₂)
    ∧ (∀ (text c : String) (cands : List String),
        equalsAny text (c :: c :: cands) = equalsAny text (c :: cands)) := by
  have base : ∀ (text : String) (cands : List String),
      equalsAny text cands = true ↔ ∃ c ∈ cands, normalize text = normalize c := by
    intro text cands
    rw [equalsAny]
    rw [show ((cands.map normalize).contains (normalize text))
        = (cands.map normalize).elem (normalize text) from rfl]
    rw [List.elem_iff, List.mem_map]
    constructor
    · rintro ⟨c, hc, he⟩
      exact ⟨c, hc, he.symm⟩
    · rintro ⟨c, hc, he⟩
      exact ⟨c, hc, he.symm⟩
  refine ⟨base, ?_, ?_, ?_⟩
  · intro s s2 h
    exact (base s [s2]).mpr ⟨s2, List.mem_singleton.mpr rfl, h⟩
  · intro text l₁ l₂ hp
    rw [Bool.eq_iff_iff, base, base]
    constructor
    · rintro ⟨c, hc, he⟩
      exact ⟨c, hp.mem_iff.mp hc, he⟩
    · rintro ⟨c, hc, he⟩
      exact ⟨c, hp.mem_iff.mpr hc, he⟩
  · intro text c cands
    rw [Bool.eq_iff_iff, base, base]
    simp only [List.mem_cons]
    constructor
    · rintro ⟨x, hx, he⟩
      rcases hx with h | h | h
      · exact ⟨x, Or.inl h, he⟩
      · exact ⟨x, Or.inl h, he⟩
      · exact ⟨x, Or.inr h, he⟩
    · rintro ⟨x, hx, he⟩
      rcases hx with h | h
      · exact ⟨x, Or.inl h, he⟩
      · exact ⟨x, Or.inr (Or.inr h), he⟩

/-- Witness for C4: a punctuation/case variant is accepted for the `day2`
sentence item, and a two-candidate list may be swapped. -/
theorem equalsAny_spec_witness :
    equalsAny "tom went to school." ["Tom went to school."] = true
    ∧ equalsAny "x" ["a", "b"] = equalsAny "x" ["b", "a"] :=
  ⟨equalsAny_spec.2.1 "tom went to school." "Tom went to school." (by decide),
   equalsAny_spec.2.2.1 "x" ["a", "b"] ["b", "a"] (List.Perm.swap "b" "a" [])⟩

/-- The trimmed content is nonempty as a Bool exactly when the trimmed
string differs from the empty string. -/
theorem trim_ok_iff (s : String) :
    (decide ((jsTrim s.data).length > 0) = true) ↔ jsTrimStr s ≠ "" := by
  rw [decide_eq_true_iff, jsTrimStr, Ne, String.ext_iff]
  show 0 < (jsTrim s.data).length ↔ ¬(jsTrim s.data = [])
  exact List.length_pos

/-- The source's conditional-expression hint policy coincides with the
claim's case split on absent/empty/nonempty keyword lists. -/
theorem shortHasHint_eq_claim (kind : ItemKind) (answer : String) :
    shortHasHint kind answer = claimHasHint kind answer := by
  cases kind with
  | short ks =>
    cases ks with
    | none => rfl
    | some l =>
      cases l with
      | nil => rfl
      | cons k ks' => simp [shortHasHint, claimHasHint]
  | mcq o a => rfl
  | text a => rfl
  | writing => rfl

/-- The flattened item list of the keyword-erased test is the pointwise
erasure of the original flattened list. -/
theorem allItems_erase (t : Test) :
    allItems (eraseShortKeywords t) = (allItems t).map eraseKw := by
  simp [allItems, eraseShortKeywords, List.map_flatMap, List.flatMap_map]

/-- Erasing a short item's keywords changes no score-relevant attribute. -/
theorem eraseKw_invariant (answers : AnswerMap) (it : Item) :
    mcqCorrect answers (eraseKw it) = mcqCorrect answers it
    ∧ textCorrect answers (eraseKw it) = textCorrect answers it
    ∧ isAutoScored (eraseKw it) = isAutoScored it := by
  cases hk : it.kind <;>
    simp [eraseKw, hk, mcqCorrect, textCorrect, isAutoScored]

/-- The auto-score ignores short items' keywords. -/
theorem autoScore_erase (t : Test) (answers : AnswerMap) :
    autoScore (eraseShortKeywords t) answers = autoScore t answers := by
  rw [autoScore, autoScore, autoScore_foldl_eq, autoScore_foldl_eq]
  rw [autoScoredItems, autoScoredItems, allItems_erase]
  rw [List.countP_filter, List.countP_filter, List.countP_filter,
    List.countP_filter, List.countP_map, List.countP_map]
  have h1 : ((fun a => mcqCorrect answers a && isAutoScored a) ∘ eraseKw)
      = fun a => mcqCorrect answers a && isAutoScored a := by
    funext it
    simp only [Function.comp_apply]
    rw [(eraseKw_invariant answers it).1, (eraseKw_invariant answers it).2.2]
  have h2 : ((fun a => textCorrect answers a && isAutoScored a) ∘ eraseKw)
      = fun a => textCorrect answers a && isAutoScored a := by
    funext it
    simp only [Function.comp_apply]
    rw [(eraseKw_invariant answers it).2.1, (eraseKw_invariant answers it).2.2]
  rw [h1, h2]

/-- C7: every short item's feedback entry has `ok` true exactly when the
stored answer trims to a nonempty string, and `hasHint` true automatically
when the item defines no keywords (absent or empty list) and equal to
`containsAnyKeyword` otherwise; and the feedback inputs (the keyword
lists) can never change the auto-score or the final score. -/
theorem shortHints_spec :
    (∀ (t : Test) (answers : AnswerMap), ∀ fb ∈ shortHints t answers,
      ∃ it ∈ allItems t, isShort it = true ∧ fb.id = it.id
        ∧ (fb.ok = true ↔ jsTrimStr (storedAnswer answers it.id) ≠ "")
        ∧ fb.hasHint = claimHasHint it.kind (storedAnswer answers it.id))
    ∧ (∀ (t : Test) (answers : AnswerMap) (ss : Option Nat),
        autoScore (eraseShortKeywords t) answers = autoScore t answers
        ∧ finalScore (eraseShortKeywords t) answers ss = finalScore t answers ss) := by
  constructor
  · intro t answers fb hfb
    rw [shortHints, List.mem_map] at hfb
    obtain ⟨it, hit, rfl⟩ := hfb
    rw [List.mem_filter] at hit
    exact ⟨it, hit.1, hit.2, rfl, trim_ok_iff (storedAnswer answers it.id),
      shortHasHint_eq_claim it.kind (storedAnswer answers it.id)⟩
  · intro t answers ss
    refine ⟨autoScore_erase t answers, ?_⟩
    rw [finalScore, finalScore, autoScore_erase t answers]

/-- Witness for C7 at scenario C of the spec: the feedback produced for the
`r1` item of the mixed-skills test when answered "She felt a bit
nervous.". -/
theorem shortHints_spec_witness :
    ∃ it ∈ allItems originalTest, isShort it = true
      ∧ (⟨"r1", "How did Emma feel about starting 8th grade?", true, true,
          ["nervous", "excited"]⟩ : HintFeedback).id = it.id
      ∧ ((⟨"r1", "How did Emma feel about starting 8th grade?", true, true,
          ["nervous", "excited"]⟩ : HintFeedback).ok = true
          ↔ jsTrimStr (storedAnswer [("r1", "She felt a bit nervous.")] it.id) ≠ "")
      ∧ (⟨"r1", "How did Emma feel about starting 8th grade?", true, true,
          ["nervous", "excited"]⟩ : HintFeedback).hasHint
          = claimHasHint it.kind (storedAnswer [("r1", "She felt a bit nervous.")] it.id) :=
  shortHints_spec.1 originalTest [("r1", "She felt a bit nervous.")] _ (by decide)

/-- The code's per-item export rendering agrees with the amended claim's
rendering on every item. -/
theorem exportLine_eq_amendedLine (n : String) (it : Item) (answers : AnswerMap) :
    exportLine n it answers = amendedLine n it answers := by
  cases hk : it.kind <;> simp [exportLine, amendedLine, hk]

/-- C9 (amended): the export text renders, for every item in test order,
the section-name/prompt line followed by the answer line, blocks joined by
one blank line; an mcq answer renders as the uppercased code, `") "`, and
the label found for the code (the string "undefined" when no option
matches), with `"—"` substituted exactly when the stored answer is absent
or empty; any other item renders the raw stored string with `"—"`
substituted when the answer is absent or whitespace-only. -/
theorem exportText_eq_amended (t : Test) (answers : AnswerMap) :
    exportText t answers = amendedExportText t answers := by
  rw [exportText, amendedExportText, allItemsWithSection, List.map_flatMap]
  simp only [List.map_map]
  have h : (fun (s : Section) => s.items.map (fun it => exportLine s.name it answers))
      = fun (s : Section) => s.items.map
          ((fun p : String × Item => amendedLine p.1 p.2 answers) ∘ fun it => (s.name, it)) := by
    funext s
    apply List.map_congr_left
    intro it _
    exact exportLine_eq_amendedLine s.name it answers
  rw [h]

/-! ### Lemmas towards the idempotence of `normalize` -/

/-- Output characters are not uppercase ASCII, so lowercasing fixes them. -/
theorem isOutChar_toLower (c : Char) (h : isOutChar c = true) :
    jsToLower c = c := by
  rw [jsToLower, if_neg]
  rw [isOutChar] at h
  rcases Bool.or_eq_true _ _ ▸ h with h1 | h1
  · rcases Bool.or_eq_true _ _ ▸ h1 with h2 | h2
    · simp only [isLowerAlpha, Bool.and_eq_true, decide_eq_true_eq] at h2
      omega
    · simp only [isDigitChar, Bool.and_eq_true, decide_eq_true_eq] at h2
      omega
  · rw [beq_iff_eq.mp h1]
    decide

/-- Output characters survive the character-class replacement. -/
theorem isOutChar_normChar (c : Char) (h : isOutChar c = true) :
    normChar c = c := by
  rw [normChar, if_pos]
  rw [isOutChar] at h
  rcases Bool.or_eq_true _ _ ▸ h with h1 | h1
  · simp [h1]
  · rw [beq_iff_eq.mp h1]
    decide

/-- A whitespace output character is the space. -/
theorem isOutChar_ws_space (c : Char) (h : isOutChar c = true)
    (hw : isJsWs c = true) : c = ' ' := by
  rw [isOutChar] at h
  rcases Bool.or_eq_true _ _ ▸ h with h1 | h1
  · exfalso
    simp only [isJsWs, Bool.or_eq_true, Bool.and_eq_true, decide_eq_true_eq,
      beq_iff_eq] at hw
    rcases Bool.or_eq_true _ _ ▸ h1 with h2 | h2
    · simp only [isLowerAlpha, Bool.and_eq_true, decide_eq_true_eq] at h2
      omega
    · simp only [isDigitChar, Bool.and_eq_true, decide_eq_true_eq] at h2
      omega
  · exact beq_iff_eq.mp h1

/-- The character-class replacement only emits spaces or kept
non-whitespace characters, which are letters or digits. -/
theorem normChar_out (b : Char) (h : isJsWs (normChar b) = false) :
    isOutChar (normChar b) = true := by
  by_cases hk : (isLowerAlpha b || isDigitChar b || isJsWs b) = true
  · rw [normChar, if_pos hk]
    rw [normChar, if_pos hk] at h
    rw [isOutChar]
    rcases Bool.or_eq_true _ _ ▸ hk with h1 | h1
    · simp [h1]
    · rw [h1] at h
      cases h
  · rw [normChar, if_neg hk]
    decide

/-- Every character of the collapsed list is a space or a non-whitespace
character of the input. -/
theorem mem_collapseWs (l : List Char) :
    ∀ c ∈ collapseWs l, c = ' ' ∨ (c ∈ l ∧ isJsWs c = false) := by
  induction l with
  | nil => intro c h; simp [collapseWs] at h
  | cons c0 rest ih =>
    intro c h
    rw [collapseWs] at h
    split_ifs at h with hw hh
    · rcases ih c h with h1 | ⟨h2, h3⟩
      · exact Or.inl h1
      · exact Or.inr ⟨List.mem_cons_of_mem _ h2, h3⟩
    · rcases List.mem_cons.mp h with h1 | h1
      · exact Or.inl h1
      · rcases ih c h1 with h2 | ⟨h3, h4⟩
        · exact Or.inl h2
        · exact Or.inr ⟨List.mem_cons_of_mem _ h3, h4⟩
    · rcases List.mem_cons.mp h with h1 | h1
      · exact Or.inr ⟨h1 ▸ List.mem_cons_self _ _, h1 ▸ Bool.not_eq_true _ ▸ hw⟩
      · rcases ih c h1 with h2 | ⟨h3, h4⟩
        · exact Or.inl h2
        · exact Or.inr ⟨List.mem_cons_of_mem _ h3, h4⟩

/-- Whitespace in the collapsed list can only be the space itself. -/
theorem ws_mem_collapseWs (l : List Char) (c : Char) (h : c ∈ collapseWs l)
    (hw : isJsWs c = true) : c = ' ' := by
  rcases mem_collapseWs l c h with h1 | ⟨_, h2⟩
  · exact h1
  · rw [hw] at h2; cases h2

/-- The tail of a run-free list is run-free. -/
theorem noWsRun_tail (a : Char) (l : List Char) (h : noWsRun (a :: l) = true) :
    noWsRun l = true := by
  cases l with
  | nil => rfl
  | cons b r => exact (Bool.and_eq_true _ _ ▸ h).2

/-- Prepending a non-whitespace character keeps a list run-free. -/
theorem noWsRun_cons (a : Char) (l : List Char) (ha : isJsWs a = false)
    (h : noWsRun l = true) : noWsRun (a :: l) = true := by
  cases l with
  | nil => rfl
  | cons b r =>
    show (!(isJsWs a && isJsWs b) && noWsRun (b :: r)) = true
    rw [ha, Bool.false_and, Bool.not_false, Bool.true_and]
    exact h

/-- In a run-free list the head pair is not two whitespace characters. -/
theorem noWsRun_head (a b : Char) (l : List Char)
    (h : noWsRun (a :: b :: l) = true) : (isJsWs a && isJsWs b) = false := by
  have h1 := (Bool.and_eq_true _ _ ▸ h).1
  rwa [Bool.not_eq_eq_eq_not, Bool.not_true] at h1

/-- Collapsing leaves no whitespace runs. -/
theorem noWsRun_collapseWs (l : List Char) : noWsRun (collapseWs l) = true := by
  induction l with
  | nil => rfl
  | cons c0 rest ih =>
    rw [collapseWs]
    split_ifs with hw hh
    · exact ih
    · cases hrec : collapseWs rest with
      | nil => rfl
      | cons d r =>
        rw [hrec] at hh ih
        have hd : isJsWs d = false := by
          by_cases hwd : isJsWs d = true
          · exfalso
            refine hh ?_
            rw [ws_mem_collapseWs rest d (hrec ▸ List.mem_cons_self _ _) hwd]
            simp
          · exact Bool.not_eq_true _ ▸ hwd
        show (!(isJsWs ' ' && isJsWs d) && noWsRun (d :: r)) = true
        rw [hd, Bool.and_false, Bool.not_false, Bool.true_and]
        exact ih
    · exact noWsRun_cons c0 _ (Bool.not_eq_true _ ▸ hw) ih

/-- A run-free list whose whitespace is all the plain space is a fixed
point of collapsing. -/
theorem collapseWs_eq_self (l : List Char) (h1 : noWsRun l = true)
    (h2 : ∀ c ∈ l, isJsWs c = true → c = ' ') : collapseWs l = l := by
  induction l with
  | nil => rfl
  | cons c0 rest ih =>
    have ihr := ih (noWsRun_tail c0 rest h1)
      (fun c hc hw => h2 c (List.mem_cons_of_mem _ hc) hw)
    rw [collapseWs]
    split_ifs with hw hh
    · exfalso
      rw [ihr] at hh
      cases hrest : rest with
      | nil => rw [hrest] at hh; cases hh
      | cons d r =>
        rw [hrest] at hh h1
        have hd : d = ' ' := by
          have := beq_iff_eq.mp hh
          simpa using this
        have hpair := noWsRun_head c0 d r h1
        rw [hw, hd] at hpair
        exact absurd hpair (by decide)
    · rw [ihr, h2 c0 (List.mem_cons_self _ _) hw]
    · rw [ihr]

/-- The head surviving `dropWhile` fails the dropped predicate. -/
theorem head_dropWhile (p : Char → Bool) :
    ∀ (l : List Char) (c : Char), (l.dropWhile p).head? = some c → p c = false := by
  intro l
  induction l with
  | nil => intro c h; cases h
  | cons a rest ih =>
    intro c h
    rw [List.dropWhile_cons] at h
    by_cases ha : p a = true
    · rw [if_pos ha] at h
      exact ih c h
    · rw [if_neg ha] at h
      cases h
      exact Bool.not_eq_true _ ▸ ha

/-- `dropWhile` keeps only elements of the list. -/
theorem mem_dropWhile (p : Char → Bool) :
    ∀ (l : List Char) (c : Char), c ∈ l.dropWhile p → c ∈ l := by
  intro l
  induction l with
  | nil => intro c h; exact h
  | cons a rest ih =>
    intro c h
    rw [List.dropWhile_cons] at h
    by_cases ha : p a = true
    · rw [if_pos ha] at h
      exact List.mem_cons_of_mem _ (ih c h)
    · rwa [if_neg ha] at h

/-- `dropWhile` keeps a run-free list run-free. -/
theorem noWsRun_dropWhile (p : Char → Bool) :
    ∀ l : List Char, noWsRun l = true → noWsRun (l.dropWhile p) = true := by
  intro l
  induction l with
  | nil => intro h; exact h
  | cons a rest ih =>
    intro h
    rw [List.dropWhile_cons]
    by_cases ha : p a = true
    · rw [if_pos ha]
      exact ih (noWsRun_tail a rest h)
    · rwa [if_neg ha]

/-- A list whose head fails the predicate is fixed by `dropWhile`. -/
theorem dropWhile_eq_self (p : Char → Bool) (l : List Char)
    (h : ∀ c, l.head? = some c → p c = false) : l.dropWhile p = l := by
  cases l with
  | nil => rfl
  | cons a rest =>
    rw [List.dropWhile_cons, if_neg]
    rw [h a rfl]
    exact Bool.false_ne_true

/-- Trailing-trim keeps only elements of the list. -/
theorem mem_dropTrailingWs :
    ∀ (l : List Char) (c : Char), c ∈ dropTrailingWs l → c ∈ l := by
  intro l
  induction l with
  | nil => intro c h; exact h
  | cons a rest ih =>
    intro c h
    rw [dropTrailingWs] at h
    cases hrec : dropTrailingWs rest with
    | nil =>
      rw [hrec] at h
      by_cases ha : isJsWs a = true
      · rw [if_pos ha] at h
        cases h
      · rw [if_neg ha] at h
        rcases List.mem_singleton.mp h with rfl
        exact List.mem_cons_self _ _
    | cons d r =>
      rw [hrec] at h
      rcases List.mem_cons.mp h with h1 | h1
      · exact h1 ▸ List.mem_cons_self _ _
      · exact List.mem_cons_of_mem _ (ih c (hrec ▸ h1))

/-- A nonempty trailing-trim starts where the list starts. -/
theorem head_dropTrailingWs :
    ∀ (l : List Char) (d : Char) (r : List Char),
      dropTrailingWs l = d :: r → l.head? = some d := by
  intro l
  induction l with
  | nil => intro d r h; cases h
  | cons a rest ih =>
    intro d r h
    rw [dropTrailingWs] at h
    cases hrec : dropTrailingWs rest with
    | nil =>
      rw [hrec] at h
      by_cases ha : isJsWs a = true
      · rw [if_pos ha] at h
        cases h
      · rw [if_neg ha] at h
        cases h
        rfl
    | cons e r' =>
      rw [hrec] at h
      cases h
      rfl

/-- Trailing-trim keeps a run-free list run-free. -/
theorem noWsRun_dropTrailingWs :
    ∀ l : List Char, noWsRun l = true → noWsRun (dropTrailingWs l) = true := by
  intro l
  induction l with
  | nil => intro h; exact h
  | cons a rest ih =>
    intro h
    rw [dropTrailingWs]
    cases hrec : dropTrailingWs rest with
    | nil =>
      by_cases ha : isJsWs a = true
      · rw [if_pos ha]; rfl
      · rw [if_neg ha]; rfl
    | cons d r =>
      have hd := head_dropTrailingWs rest d r hrec
      cases rest with
      | nil => cases hd
      | cons e rest2 =>
        cases hd
        have hpair := noWsRun_head a d rest2 h
        show (!(isJsWs a && isJsWs d) && noWsRun (d :: r)) = true
        rw [hpair, Bool.not_false, Bool.true_and, ← hrec]
        exact ih (noWsRun_tail a _ h)

/-- The last element surviving trailing-trim is not whitespace. -/
theorem last_dropTrailingWs :
    ∀ (l : List Char) (c : Char), (dropTrailingWs l).getLast? = some c →
      isJsWs c = false := by
  intro l
  induction l with
  | nil => intro c h; cases h
  | cons a rest ih =>
    intro c h
    rw [dropTrailingWs] at h
    cases hrec : dropTrailingWs rest with
    | nil =>
      rw [hrec] at h
      by_cases ha : isJsWs a = true
      · rw [if_pos ha] at h
        cases h
      · rw [if_neg ha] at h
        cases h
        exact Bool.not_eq_true _ ▸ ha
    | cons d r =>
      rw [hrec] at h
      rw [List.getLast?_cons_cons] at h
      exact ih c (hrec ▸ h)

/-- A list with no trailing whitespace is fixed by trailing-trim. -/
theorem dropTrailingWs_eq_self :
    ∀ l : List Char, (∀ c, l.getLast? = some c → isJsWs c = false) →
      dropTrailingWs l = l := by
  intro l
  induction l with
  | nil => intro _; rfl
  | cons a rest ih =>
    intro h
    rw [dropTrailingWs]
    cases rest with
    | nil =>
      rw [show dropTrailingWs [] = [] from rfl]
      rw [if_neg]
      rw [h a rfl]
      exact Bool.false_ne_true
    | cons e rest2 =>
      have : dropTrailingWs (e :: rest2) = e :: rest2 := by
        refine ih ?_
        intro c hc
        refine h c ?_
        rw [List.getLast?_cons_cons]
        exact hc
      rw [this]

/-- The output of `normalize` is canonical: only lowercase letters, digits
and isolated interior spaces. -/
theorem canonical_normalize (s : String) : canonical (normalize s).data := by
  unfold canonical
  have hX : (normalize s).data
      = dropTrailingWs
          ((collapseWs ((s.data.map jsToLower).map normChar)).dropWhile isJsWs) := rfl
  rw [hX]
  refine ⟨?_, ?_, ?_, fun c h => last_dropTrailingWs _ c h⟩
  · intro c hc
    have hc2 := mem_dropWhile isJsWs _ c (mem_dropTrailingWs _ c hc)
    rcases mem_collapseWs _ c hc2 with h1 | ⟨h2, h3⟩
    · rw [h1]; decide
    · rw [List.mem_map] at h2
      obtain ⟨b, _, rfl⟩ := h2
      exact normChar_out b h3
  · exact noWsRun_dropTrailingWs _ (noWsRun_dropWhile isJsWs _ (noWsRun_collapseWs _))
  · intro c h
    cases hrec : dropTrailingWs
        ((collapseWs ((s.data.map jsToLower).map normChar)).dropWhile isJsWs) with
    | nil => rw [hrec] at h; cases h
    | cons d r =>
      rw [hrec, List.head?_cons] at h
      cases h
      exact head_dropWhile isJsWs _ c (head_dropTrailingWs _ c r hrec)

/-- A canonical character list is a fixed point of the whole `normalize`
pipeline. -/
theorem normalize_canonical_fixed (l : List Char) (h : canonical l) :
    jsTrim (collapseWs ((l.map jsToLower).map normChar)) = l := by
  obtain ⟨hout, hrun, hhead, hlast⟩ := h
  have h1 : l.map jsToLower = l := by
    have := List.map_congr_left (l := l) (f := jsToLower) (g := id)
      (fun a ha => isOutChar_toLower a (hout a ha))
    rwa [List.map_id] at this
  have h2 : l.map normChar = l := by
    have := List.map_congr_left (l := l) (f := normChar) (g := id)
      (fun a ha => isOutChar_normChar a (hout a ha))
    rwa [List.map_id] at this
  rw [h1, h2, collapseWs_eq_self l hrun
      (fun c hc hw => isOutChar_ws_space c (hout c hc) hw),
    jsTrim, dropWhile_eq_self isJsWs l hhead, dropTrailingWs_eq_self l hlast]

/-- C3: `normalize` is a total function computed by lowercasing, replacing
every character outside the lowercase-letter/digit/whitespace class with a
space, collapsing whitespace runs and trimming; it is idempotent, and
empty input yields the empty string. -/
theorem normalize_idempotent :
    (∀ s : String, normalize (normalize s) = normalize s) ∧ normalize "" = "" := by
  constructor
  · intro s
    show String.mk (jsTrim (collapseWs (((normalize s).data.map jsToLower).map normChar)))
        = normalize s
    rw [normalize_canonical_fixed (normalize s).data (canonical_normalize s)]
  · rfl

/-- C9 counterexample: with the `day2` test and an answer map storing a
single space for the mcq item `d2_1`, the code renders the space code and
the label "undefined" while the claim's global whitespace rule demands
`"—"`. -/
theorem exportText_claim_counterexample :
    exportText day2Test [("d2_1", " ")]
      ≠ claimExportText day2Test [("d2_1", " ")] := by decide

/-- A list of actions that is enabled all along leads from a reachable
state to a reachable state. -/
theorem reachable_runActions (acts : List Action) :
    ∀ s : Session, Reachable s → allEnabled s acts = true →
      Reachable (runActions s acts) := by
  induction acts with
  | nil => intro s h _; exact h
  | cons a rest ih =>
    intro s h hen
    rw [allEnabled, Bool.and_eq_true] at hen
    exact ih (apply s a) (Reachable.step h ⟨hen.1, rfl⟩) hen.2

/-- C5: in every reachable state that shows the test view unfinished, the
switch back to reading and every test switch are disabled; the results
view can only ever be shown finished, and the results button is enabled
exactly when finished. -/
theorem midtest_guard_and_results_gate :
    (∀ s : Session, Reachable s → s.tab = .test → s.finished = false →
      enabled s (.setTab .read) = false ∧ ∀ k, enabled s (.selectTest k) = false)
    ∧ (∀ s : Session, Reachable s → s.tab = .results → s.finished = true)
    ∧ (∀ s : Session, enabled s (.setTab .results) = s.finished) := by
  refine ⟨?_, ?_, fun s => rfl⟩
  · intro s _ ht hf
    constructor
    · simp [enabled, ht, hf]
    · intro k
      simp [enabled, ht, hf]
  · intro s hs
    induction hs with
    | init => intro h; simp [initialSession] at h
    | @step s a s' _ hstep ih =>
      obtain ⟨hen, rfl⟩ := hstep
      cases a with
      | setAnswer id v => exact fun h => ih h
      | selectTest k => intro h; simp [apply] at h
      | reset => intro h; simp [apply] at h
      | finish => intro _; rfl
      | setTab t =>
        cases t with
        | read => intro h; simp [apply] at h
        | test => intro h; simp [apply] at h
        | results => intro _; exact hen
      | setSelfScoreWriting n => exact fun h => ih h

/-- Witness for C5: right after opening the test view from the initial
state, reading and test switching are disabled; and after the full demo
pass the session shows results, so the invariant yields its finished
flag. -/
theorem midtest_guard_and_results_gate_witness :
    (enabled (apply initialSession (.setTab .test)) (.setTab .read) = false
      ∧ ∀ k, enabled (apply initialSession (.setTab .test)) (.selectTest k) = false)
    ∧ demoRun.finished = true :=
  ⟨midtest_guard_and_results_gate.1 (apply initialSession (.setTab .test))
      (Reachable.step Reachable.init ⟨by decide, rfl⟩) rfl rfl,
   midtest_guard_and_results_gate.2.1 demoRun
      (reachable_runActions demoActions initialSession Reachable.init (by decide))
      (by decide)⟩

end QuizApp
